import Mathlib

/-!
Verification development for the nwb-conversion-tools metadata/schema
composition-and-validation engine and its chunked write pipeline.

Definitions embed the repository's schema documents
(`src/nwb_conversion_tools/schemas/metadata_schema.json`,
`src/nwb_conversion_tools/schemas/source_schema.json`) and the documented
behaviour of `NWBConverter.run_conversion` from the tutorial notebook.
Components whose Python source is not part of the repository snapshot
(MetadataMerger, IterativeWriter, ConversionOrchestrator internals) are
modelled from the specification, as marked in their doc comments.
-/

namespace NwbConv

/-- A JSON value, as used by the metadata and source-schema documents. -/
inductive Json where
  | null : Json
  | bool (b : Bool) : Json
  | num (n : Int) : Json
  | str (s : String) : Json
  | arr (items : List Json) : Json
  | obj (fields : List (String × Json)) : Json

mutual

/-- Structural equality test on JSON values. -/
def Json.beq : Json → Json → Bool
  | .null, .null => true
  | .bool a, .bool b => a == b
  | .num a, .num b => a == b
  | .str a, .str b => a == b
  | .arr xs, .arr ys => Json.beqList xs ys
  | .obj xs, .obj ys => Json.beqFields xs ys
  | _, _ => false

/-- Structural equality test on lists of JSON values. -/
def Json.beqList : List Json → List Json → Bool
  | [], [] => true
  | x :: xs, y :: ys => Json.beq x y && Json.beqList xs ys
  | _, _ => false

/-- Structural equality test on JSON object field lists. -/
def Json.beqFields : List (String × Json) → List (String × Json) → Bool
  | [], [] => true
  | (k1, v1) :: xs, (k2, v2) :: ys => k1 == k2 && Json.beq v1 v2 && Json.beqFields xs ys
  | _, _ => false

end

/-- A shallow embedding of the JSON-Schema (draft-07) subset used by the
repository's schema documents: typed scalars with optional `format` and
`enum`, arrays with `items`, objects with `required`, `properties` and
`additionalProperties`, `$ref` into a `definitions` table, and `allOf`
composition (the sibling keywords of an `allOf` apply in conjunction). -/
inductive Schema where
  | strT (format : Option String) (enumVals : Option (List String)) : Schema
  | numT : Schema
  | boolT : Schema
  | arrT (items : Schema) : Schema
  | objT (required : List String) (props : List (String × Schema)) (closed : Bool) : Schema
  | refT (name : String) : Schema
  | allOfT (subs : List Schema) (sibling : Schema) : Schema

/-- Draft-07 validation over the embedded schema subset.  `defs` is the
document's `definitions` table, `fmtOk` the environment-dependent `format`
check (`file` / `directory` existence, `date-time` syntax).  `fuel` bounds
`$ref` unfolding; every schema in the repository is validated fully by a
small fuel.  An object schema enforces required-key presence, validates
declared keys against their property schemas, and rejects undeclared keys
exactly when `additionalProperties: false` was declared (`closed = true`);
otherwise undeclared keys are accepted, as draft-07 prescribes. -/
def validate (defs : List (String × Schema)) (fmtOk : String → String → Bool) :
    Nat → Schema → Json → Bool
  | 0, _, _ => false
  | _ + 1, .strT format enumVals, doc =>
    match doc with
    | .str v =>
      (match format with
       | none => true
       | some f => fmtOk f v) &&
      (match enumVals with
       | none => true
       | some es => es.contains v)
    | _ => false
  | _ + 1, .numT, doc =>
    match doc with
    | .num _ => true
    | _ => false
  | _ + 1, .boolT, doc =>
    match doc with
    | .bool _ => true
    | _ => false
  | fuel + 1, .arrT items, doc =>
    match doc with
    | .arr xs => xs.all (validate defs fmtOk fuel items)
    | _ => false
  | fuel + 1, .objT required props closed, doc =>
    match doc with
    | .obj fields =>
      required.all (fun k => fields.any (fun kv => kv.1 == k)) &&
      fields.all (fun kv =>
        match props.find? (fun p => p.1 == kv.1) with
        | some p => validate defs fmtOk fuel p.2 kv.2
        | none => !closed)
    | _ => false
  | fuel + 1, .refT name, doc =>
    match defs.find? (fun d => d.1 == name) with
    | some d => validate defs fmtOk fuel d.2 doc
    | none => false
  | fuel + 1, .allOfT subs sibling, doc =>
    subs.all (fun sub => validate defs fmtOk fuel sub doc) &&
    validate defs fmtOk fuel sibling doc

/-- A format check that accepts every `format`-tagged string; used to
instantiate theorems whose truth does not depend on the filesystem. -/
def anyFmt : String → String → Bool := fun _ _ => true

/-- Shorthand for `{"type": "string"}`. -/
def strS : Schema := .strT none none

/-- Shorthand for `{"type": "string", "format": "date-time"}`. -/
def dateTimeS : Schema := .strT (some "date-time") none

/-- Embedding of `metadata_schema.json` `definitions`.  `default`
annotations of the source document are omitted: draft-07 validation
ignores them. -/
def metadataDefs : List (String × Schema) :=
  [("TimeSeries",
    .objT ["name", "description"]
      [("name", strS), ("description", strS), ("conversion", .numT), ("tag", strS)] false),
   ("Devices",
    .arrT (.objT ["name"] [("name", strS), ("tag", strS)] false)),
   ("RoiResponseSeries",
    .allOfT [.refT "TimeSeries"] (.objT [] [("rois", strS)] false))]

/-- The declared properties of the `NWBFile` object of
`metadata_schema.json`. -/
def nwbfileProps : List (String × Schema) :=
  [("keywords", .arrT strS),
     ("experiment_description", strS),
     ("session_id", strS),
     ("experimenter", .arrT strS),
     ("identifier", strS),
     ("institution", strS),
     ("lab", strS),
     ("session_description", strS),
     ("session_start_time", dateTimeS),
     ("surgery", strS),
     ("pharmacology", strS),
     ("protocol", strS),
     ("related_publications", .arrT strS),
     ("notes", strS),
     ("virus", strS)]

/-- Embedding of the `NWBFile` property of `metadata_schema.json`:
`additionalProperties: false`, `required: []`. -/
def nwbfileSchema : Schema := .objT [] nwbfileProps true

/-- The declared properties of the `Subject` object of
`metadata_schema.json`. -/
def subjectProps : List (String × Schema) :=
  [("description", strS),
     ("genotype", strS),
     ("sex", .strT none (some ["M", "F", "U", "O"])),
     ("species", strS),
     ("subject_id", strS),
     ("weight", strS),
     ("date_of_birth", dateTimeS)]

/-- Embedding of the `Subject` property of `metadata_schema.json`:
`required: ["subject_id"]`, and no `additionalProperties` keyword, so the
object is open. -/
def subjectSchema : Schema := .objT ["subject_id"] subjectProps false

/-- Embedding of the `Behavior` property of `metadata_schema.json`. -/
def behaviorSchema : Schema :=
  .objT []
    [("Position",
      .objT []
        [("name", strS),
         ("spatial_series",
          .arrT (.allOfT [.refT "TimeSeries"]
            (.objT [] [("reference_frame", strS)] false)))] false),
     ("BehavioralEvents",
      .objT []
        [("name", strS),
         ("time_series",
          .arrT (.allOfT [.refT "TimeSeries"]
            (.objT [] [("unit", strS)] false)))] false)] false

/-- Embedding of the `Ecephys` property of `metadata_schema.json`. -/
def ecephysSchema : Schema :=
  .objT []
    [("Devices", .refT "Devices"),
     ("ElectricalSeries",
      .arrT (.objT ["name", "description"]
        [("name", strS), ("description", strS)] false)),
     ("ElectrodeGroups",
      .arrT (.objT ["name", "description", "location", "device"]
        [("name", strS), ("description", strS), ("location", strS),
         ("device", strS), ("tag", strS)] false))] false

/-- Embedding of the `Ophys` property of `metadata_schema.json`. -/
def ophysSchema : Schema :=
  .objT ["Devices"]
    [("Devices", .refT "Devices"),
     ("DFOverF",
      .objT ["name"]
        [("name", strS),
         ("roi_response_series", .arrT (.refT "RoiResponseSeries"))] false),
     ("Fluorescence",
      .objT ["name"]
        [("name", strS),
         ("roi_response_series", .arrT (.refT "RoiResponseSeries"))] false),
     ("ImageSegmentation",
      .objT ["name", "plane_segmentation"]
        [("name", strS),
         ("PlaneSegmentations",
          .arrT (.objT ["name", "description"]
            [("name", strS), ("description", strS),
             ("imaging_plane", strS), ("tag", strS)] false))] false),
     ("ImagingPlanes",
      .arrT (.objT ["name", "description"]
        [("name", strS), ("description", strS), ("device", strS),
         ("excitation_lambda", .numT), ("imaging_rate", .numT),
         ("indicator", strS), ("location", strS),
         ("optical_channels",
          .arrT (.objT []
            [("name", strS), ("description", strS),
             ("emission_lambda", .numT), ("tag", strS)] false))] false)),
     ("TwoPhotonSeries",
      .arrT (.objT ["name", "description"]
        [("name", strS), ("description", strS), ("imaging_plane", strS)] false))] false

/-- The declared top-level sections of `metadata_schema.json`. -/
def metadataProps : List (String × Schema) :=
  [("NWBFile", nwbfileSchema),
   ("Subject", subjectSchema),
   ("Behavior", behaviorSchema),
   ("Ecephys", ecephysSchema),
   ("Ophys", ophysSchema)]

/-- Embedding of the top level of `metadata_schema.json`
(`metafile.schema.json`): `required: ["NWBFile"]`,
`additionalProperties: false`. -/
def metadataSchema : Schema := .objT ["NWBFile"] metadataProps true

/-- The declared flags of the `conversion_options` object of
`source_schema.json` (their `default` annotations are ignored by draft-07
validation). -/
def conversionOptionsProps : List (String × Schema) :=
  [("add_raw", .boolT),
   ("add_processed", .boolT),
   ("add_behavior", .boolT)]

/-- Embedding of `source_schema.json` (`source.schema.json`): top level
closed, `source_data` requiring `raw_data` and `processed_data` with
`file`/`directory` formats, and `conversion_options` holding boolean
flags; neither nested object declares `additionalProperties`. -/
def sourceSchema : Schema :=
  .objT []
    [("source_data",
      .objT ["raw_data", "processed_data"]
        [("raw_data", .strT (some "file") none),
         ("processed_data", .strT (some "directory") none),
         ("ref_image", .strT (some "file") none)] false),
     ("conversion_options", .objT [] conversionOptionsProps false)] true

/-- Fuel sufficient to fully validate any document against the embedded
schemas: their `$ref` chains are at most two deep, so depth plus fuel
headroom of the documents below is amply covered. -/
def schemaFuel : Nat := 32

/-- Field lookup in a JSON object; `none` on non-objects. -/
def Json.lookup (doc : Json) (key : String) : Option Json :=
  match doc with
  | .obj fields => (fields.find? (fun kv => kv.1 == key)).map Prod.snd
  | _ => none

/-- A scalar JSON value (not an array, not an object). -/
def Json.isScalar : Json → Bool
  | .null => true
  | .bool _ => true
  | .num _ => true
  | .str _ => true
  | _ => false

/-- Modelled from the spec: an "empty" scalar value for the merge rule
"scalar conflicts are resolved first non-empty value wins" — `null` or
the empty string carry no information and lose to a later value. -/
def isEmptyVal : Json → Bool
  | .null => true
  | .str s => s == ""
  | _ => false

/-- Modelled from the spec: list-valued fields "are concatenated with
duplicates removed preserving first-seen order". -/
def listUnion (xs ys : List Json) : List Json :=
  ys.foldl (fun acc y => if acc.any (fun x => Json.beq x y) then acc else acc ++ [y]) xs

/-- Modelled from the spec (MetadataMerger, §4.3): recursively merge a
later fragment `new` into the accumulator `acc`.  Objects merge key-wise
(keys absent from `acc` are appended in `new`'s order), list-valued
fields are concatenated with duplicates removed, and scalar conflicts
resolve to the first non-empty value.  `fuel` bounds the recursion depth
over nested objects. -/
def mergeVal : Nat → Json → Json → Json
  | 0, acc, _ => acc
  | fuel + 1, .obj fs1, .obj fs2 =>
    .obj (fs1.map (fun kv =>
        match fs2.find? (fun p => p.1 == kv.1) with
        | some p => (kv.1, mergeVal fuel kv.2 p.2)
        | none => kv) ++
      fs2.filter (fun p => !(fs1.any (fun kv => kv.1 == p.1))))
  | _ + 1, .arr xs, .arr ys => .arr (listUnion xs ys)
  | _ + 1, acc, new => if isEmptyVal acc then new else acc

/-- Recursion depth amply covering the nesting of metadata documents. -/
def mergeFuel : Nat := 32

/-- Modelled from the spec: MetadataMerger folds each interface's
metadata fragment (in the stable caller-specified order) into an
initially empty accumulator. -/
def mergeFragments (frags : List Json) : Json :=
  frags.foldl (mergeVal mergeFuel) (.obj [])

/-- Modelled from the spec: "apply explicit user-supplied overrides with
unconditional priority" — objects merge key-wise with the override's
value recursively taking precedence; anywhere else the override simply
replaces the accumulated value. -/
def applyOverride : Nat → Json → Json → Json
  | 0, _, ov => ov
  | fuel + 1, .obj fs1, .obj fs2 =>
    .obj (fs1.map (fun kv =>
        match fs2.find? (fun p => p.1 == kv.1) with
        | some p => (kv.1, applyOverride fuel kv.2 p.2)
        | none => kv) ++
      fs2.filter (fun p => !(fs1.any (fun kv => kv.1 == p.1))))
  | _ + 1, _, ov => ov

/-- Fuel-bounded worker for `chunkify`: peel off one chunk of at most
`size` samples per step.  When the fuel runs out (never, once fuel covers
the list length) the remainder is emitted as a single chunk. -/
def chunkifyF (size : Nat) : Nat → List Int → List (List Int)
  | _, [] => []
  | 0, x :: rest => [x :: rest]
  | fuel + 1, x :: rest =>
    (x :: rest.take (size - 1)) :: chunkifyF size fuel (rest.drop (size - 1))

/-- Modelled from the spec (IterativeWriter, §4.4, and the FAQ): data is
read from the source and written "one section at a time"; the dataset is
split into consecutive contiguous slices of at most `size` samples (the
configured chunk shape).  A non-positive `size` degrades to single-sample
chunks.  The dataset's length bounds the recursion (`chunkifyF`). -/
def chunkify (size : Nat) (xs : List Int) : List (List Int) :=
  chunkifyF size xs.length xs

/-- Start index of each chunk in emission order: the number of samples
emitted before it. -/
def emissionOffsets : List (List Int) → List Nat
  | [] => []
  | c :: cs => 0 :: (emissionOffsets cs).map (fun o => c.length + o)

/-- Modelled from the spec: the compression configuration attached to a
written dataset — algorithm identifier (GZIP by default), level, and
target chunk shape. -/
structure CompressionSpec where
  algorithm : String
  level : Nat
  chunkShape : Nat

/-- A chunk as stored on disk: either a raw extent (compression level 0,
i.e. compression turned off) or a run-length-coded compressed extent
standing for the lossless codec applied per chunk. -/
inductive StoredChunk where
  | raw (data : List Int) : StoredChunk
  | rle (runs : List (Nat × Int)) : StoredChunk

/-- Run-length code for one chunk: the lossless compressor of the model
(the FAQ's GZIP is modelled by a concrete lossless code; only the storage
representation changes, never the values). -/
def rleCompress : List Int → List (Nat × Int)
  | [] => []
  | x :: xs =>
    match rleCompress xs with
    | [] => [(1, x)]
    | (n, y) :: rest => if x = y then (n + 1, y) :: rest else (1, x) :: (n, y) :: rest

/-- Inverse of `rleCompress`: expand each run. -/
def rleDecompress : List (Nat × Int) → List Int
  | [] => []
  | (n, x) :: rest => List.replicate n x ++ rleDecompress rest

/-- Compress one chunk at a given level; level 0 means "uncompressed,
single extent". -/
def compressChunk (level : Nat) (data : List Int) : StoredChunk :=
  if level = 0 then .raw data else .rle (rleCompress data)

/-- Decompress one stored chunk back to its sample values. -/
def decompressChunk : StoredChunk → List Int
  | .raw data => data
  | .rle runs => rleDecompress runs

/-- Modelled from the spec: IterativeWriter consumes the dataset as a
chunked stream and stores each chunk compressed per the spec's level —
compression is applied "per chunk-shape boundary, not globally". -/
def writeDataset (spec : CompressionSpec) (xs : List Int) : List StoredChunk :=
  (chunkify spec.chunkShape xs).map (compressChunk spec.level)

/-- Read a written dataset back: decompress each stored chunk and
concatenate in storage order. -/
def readDataset (stored : List StoredChunk) : List Int :=
  (stored.map decompressChunk).flatten

/-- Modelled from the spec: the resident-buffer trace of an iterative
write — at each step exactly the current chunk is held in memory, so the
trace records each chunk's sample count in emission order. -/
def residentTrace (spec : CompressionSpec) (xs : List Int) : List Nat :=
  (chunkify spec.chunkShape xs).map List.length

/-- The memory high-water mark of a write: the largest resident buffer
over the whole trace. -/
def peakMemory (spec : CompressionSpec) (xs : List Int) : Nat :=
  (residentTrace spec xs).foldr max 0

mutual

/-- Deterministic byte rendering of a JSON value, standing for the byte
layout the container layer produces for attached metadata. -/
def serializeJson : Json → String
  | .null => "null"
  | .bool b => if b then "true" else "false"
  | .num n => toString n
  | .str s => "<" ++ s ++ ">"
  | .arr xs => "[" ++ serializeList xs ++ "]"
  | .obj fields => "(" ++ serializeFields fields ++ ")"

/-- Renders the elements of a JSON array. -/
def serializeList : List Json → String
  | [] => ""
  | [x] => serializeJson x
  | x :: xs => serializeJson x ++ "," ++ serializeList xs

/-- Renders the fields of a JSON object. -/
def serializeFields : List (String × Json) → String
  | [] => ""
  | [(k, v)] => k ++ ":" ++ serializeJson v
  | (k, v) :: kvs => k ++ ":" ++ serializeJson v ++ "," ++ serializeFields kvs

end

/-- Byte rendering of one stored chunk. -/
def serializeChunk : StoredChunk → String
  | .raw data => "raw:" ++ String.intercalate " " (data.map toString)
  | .rle runs =>
    "rle:" ++ String.intercalate " " (runs.map (fun r => toString r.1 ++ "x" ++ toString r.2))

/-- Byte rendering of a written dataset: its stored chunks in emission
order. -/
def serializeStored (stored : List StoredChunk) : String :=
  String.intercalate ";" (stored.map serializeChunk)

/-- The output side of a conversion run: a mapping from path to file
content (a string of bytes). -/
def FileSystem : Type := List (String × String)

/-- Content of the file at `path`, when present. -/
def FileSystem.read (fs : FileSystem) (path : String) : Option String :=
  ((fs : List (String × String)).find? (fun e => e.1 == path)).map Prod.snd

/-- Replace or create the file at `path` with `content`. -/
def FileSystem.write (fs : FileSystem) (path content : String) : FileSystem :=
  (path, content) :: (fs : List (String × String)).filter (fun e => !(e.1 == path))

/-- The arguments of `NWBConverter.run_conversion` as shown in the
tutorial notebook: `metadata`, `nwbfile_path`, `save_to_file`,
`overwrite`, `conversion_options`. -/
structure ConvArgs where
  metadata : Json
  conversionOptions : Json
  nwbfilePath : String
  saveToFile : Bool
  overwrite : Bool

/-- The single error of the modelled pipeline: metadata failed schema
validation. -/
inductive ConvError where
  | schemaViolation : ConvError
  deriving DecidableEq

/-- Modelled from the spec: the orchestrator owns the bound interfaces'
source samples (already in declared interface order) and the chunking /
compression configuration used for the write. -/
structure Orchestrator where
  sourceData : List Int
  compression : CompressionSpec

/-- Whether the metadata document explicitly provides
`NWBFile.identifier`. -/
def hasIdentifier (metadata : Json) : Bool :=
  match metadata.lookup "NWBFile" with
  | some (.obj nf) => nf.any (fun kv => kv.1 == "identifier")
  | _ => false

/-- Modelled from the schema (`metadata_schema.json`, `identifier`): "A
unique text identifier for the file. If one is not provided it will be
randomly assigned."  The random draw is made explicit as the `freshId`
argument; it is inserted into the `NWBFile` section exactly when no
identifier was provided. -/
def effectiveMetadata (freshId : String) (metadata : Json) : Json :=
  if hasIdentifier metadata then metadata
  else
    match metadata with
    | .obj fields =>
      .obj (fields.map (fun kv =>
        if kv.1 == "NWBFile" then
          (kv.1,
           match kv.2 with
           | .obj nf => .obj (nf ++ [("identifier", .str freshId)])
           | other => other)
        else kv))
    | other => other

/-- The bytes a complete conversion run produces: the rendered effective
metadata followed by the written (chunked, compressed) dataset. -/
def producedContent (conv : Orchestrator) (freshId : String) (metadata : Json) : String :=
  serializeJson (effectiveMetadata freshId metadata) ++ "|" ++
    serializeStored (writeDataset conv.compression conv.sourceData)

/-- Modelled from the spec (§4.1, §4.5) and the tutorial notebook's
documented flags: `run_conversion` first validates the metadata against
the composed metadata schema and aborts with a SchemaViolation before
any write if validation fails; with `save_to_file=False` it returns the
in-memory NWBFile object and writes nothing; with `save_to_file=True` it
writes the produced bytes at `nwbfile_path`, where `overwrite=True`
replaces an existing target and `overwrite=False` "appends an existing
file" (tutorial notebook, `detailed-tutorial.ipynb`).  The returned
`FileSystem` is the post-state of the run. -/
def run_conversion (conv : Orchestrator) (fmtOk : String → String → Bool) (freshId : String)
    (args : ConvArgs) (fs : FileSystem) :
    FileSystem × Except ConvError (Option Json) :=
  if validate metadataDefs fmtOk schemaFuel metadataSchema args.metadata then
    if args.saveToFile then
      let content := producedContent conv freshId args.metadata
      match fs.read args.nwbfilePath with
      | some old =>
        if args.overwrite then (fs.write args.nwbfilePath content, .ok none)
        else (fs.write args.nwbfilePath (old ++ content), .ok none)
      | none => (fs.write args.nwbfilePath content, .ok none)
    else (fs, .ok (some (effectiveMetadata freshId args.metadata)))
  else (fs, .error .schemaViolation)

/-! ## Theorems -/

/-- In a schema object declared closed (`additionalProperties: false`),
any undeclared key makes validation fail. -/
lemma validate_closed_reject (defs : List (String × Schema)) (fmtOk : String → String → Bool)
    (fuel : Nat) (req : List String) (props : List (String × Schema))
    (fields : List (String × Json)) (key : String) (v : Json)
    (hmem : (key, v) ∈ fields) (hkey : key ∉ props.map Prod.fst) :
    validate defs fmtOk (fuel + 1) (.objT req props true) (.obj fields) = false := by
  have hfind : props.find? (fun p => p.1 == key) = none := by
    rw [List.find?_eq_none]
    intro x hx hbeq
    exact hkey (List.mem_map.mpr ⟨x, hx, by simpa using hbeq⟩)
  rw [validate]
  have hall : fields.all (fun kv =>
      match props.find? (fun p => p.1 == kv.1) with
      | some p => validate defs fmtOk fuel p.2 kv.2
      | none => !true) = false := by
    rw [List.all_eq_false]
    refine ⟨(key, v), hmem, ?_⟩
    simp [hfind]
  rw [hall, Bool.and_false]

/-- C2 (counterexample): not all schema objects are closed.  A metadata
document whose `Subject` section carries the undeclared key
`undeclared_key` validates, because `Subject` declares no
`additionalProperties: false`; likewise a source document whose
`conversion_options` carries the undeclared flag `mystery_flag`
validates.  Both keys are absent from the respective declared property
lists. -/
theorem open_sections_accept_undeclared_cex :
    validate metadataDefs anyFmt schemaFuel metadataSchema
      (.obj [("NWBFile", .obj []),
             ("Subject", .obj [("subject_id", .str "001"), ("undeclared_key", .str "v")])]) = true ∧
    "undeclared_key" ∉ subjectProps.map Prod.fst ∧
    validate metadataDefs anyFmt schemaFuel sourceSchema
      (.obj [("conversion_options",
              .obj [("add_raw", .bool true), ("mystery_flag", .num 3)])]) = true ∧
    "mystery_flag" ∉ conversionOptionsProps.map Prod.fst :=
  ⟨rfl, by decide, rfl, by decide⟩

/-- C2 (amended): undeclared keys are rejected exactly at the schema
objects that declare `additionalProperties: false` — the top level of the
metadata document and its `NWBFile` section (and the top level of the
source document); open sections such as `Subject` and `conversion_options`
accept undeclared keys.  Here: any document carrying an undeclared
top-level section is rejected, and any `NWBFile` section carrying an
undeclared field is rejected, for every format environment. -/
theorem closed_objects_reject_undeclared (fmtOk : String → String → Bool)
    (fields nf : List (String × Json)) (key1 key2 : String) (v1 v2 : Json)
    (h1 : (key1, v1) ∈ fields) (hk1 : key1 ∉ metadataProps.map Prod.fst)
    (h2 : (key2, v2) ∈ nf) (hk2 : key2 ∉ nwbfileProps.map Prod.fst) :
    validate metadataDefs fmtOk schemaFuel metadataSchema (.obj fields) = false ∧
    validate metadataDefs fmtOk schemaFuel nwbfileSchema (.obj nf) = false :=
  ⟨validate_closed_reject metadataDefs fmtOk 31 _ _ fields key1 v1 h1 hk1,
   validate_closed_reject metadataDefs fmtOk 31 _ _ nf key2 v2 h2 hk2⟩

/-- Witness for `closed_objects_reject_undeclared` at the concrete
undeclared section `Oops` and undeclared `NWBFile` field
`mystery_field`. -/
theorem closed_objects_reject_undeclared_witness :
    validate metadataDefs anyFmt schemaFuel metadataSchema
      (.obj [("NWBFile", .obj []), ("Oops", .obj [])]) = false ∧
    validate metadataDefs anyFmt schemaFuel nwbfileSchema
      (.obj [("mystery_field", .str "v")]) = false :=
  closed_objects_reject_undeclared anyFmt _ _ "Oops" "mystery_field" (.obj []) (.str "v")
    (List.mem_cons_of_mem _ (List.mem_cons_self _ _)) (by decide)
    (List.mem_cons_self _ _) (by decide)

/-- C9: a metadata document consisting solely of an empty `NWBFile`
section validates; the wholly empty document does not (so `NWBFile` is
the required top-level section); adding an empty `Subject` section makes
validation fail (its `subject_id` is required exactly when the section is
present), and supplying `subject_id` restores validity. -/
theorem empty_nwbfile_validates :
    validate metadataDefs anyFmt schemaFuel metadataSchema (.obj [("NWBFile", .obj [])]) = true ∧
    validate metadataDefs anyFmt schemaFuel metadataSchema (.obj []) = false ∧
    validate metadataDefs anyFmt schemaFuel metadataSchema
      (.obj [("NWBFile", .obj []), ("Subject", .obj [])]) = false ∧
    validate metadataDefs anyFmt schemaFuel metadataSchema
      (.obj [("NWBFile", .obj []), ("Subject", .obj [("subject_id", .str "001")])]) = true :=
  ⟨rfl, rfl, rfl, rfl⟩

/-- Merging a non-empty scalar accumulator with any later value keeps the
accumulator ("first non-empty value wins"). -/
lemma mergeVal_scalar (n : Nat) (v1 v2 : Json)
    (h1 : v1.isScalar = true) (h2 : isEmptyVal v1 = false) :
    mergeVal (n + 1) v1 v2 = v1 := by
  cases v1 <;> cases v2 <;> simp_all [mergeVal, isEmptyVal, Json.isScalar]

/-- A scalar user override replaces whatever was accumulated
(unconditional priority). -/
lemma applyOverride_scalar (n : Nat) (m ov : Json) (hov : ov.isScalar = true) :
    applyOverride (n + 1) m ov = ov := by
  cases m <;> cases ov <;> simp_all [applyOverride, Json.isScalar]

/-- C4 (counterexample): first-writer-wins does not hold for every pair
of conflicting scalar values.  Merging the fragments with the empty
string followed by "x" on the key `a` yields `a = "x"` — the later,
non-empty value — not the first writer's empty string. -/
theorem merge_first_writer_cex :
    Json.lookup (mergeFragments [.obj [("a", .str "")], .obj [("a", .str "x")]]) "a"
      = some (.str "x") ∧ Json.str "" ≠ Json.str "x" := by
  constructor
  · rfl
  · intro h
    injection h with h2
    exact absurd h2 (by decide)

/-- C4 (amended): scalar merge conflicts resolve to the first NON-EMPTY
value: merging fragments with a conflicting scalar key keeps the first
fragment's value whenever it is non-empty (in particular `a=1` beats
`a=2`), and an explicit scalar user override applied afterwards wins
unconditionally (`a=9`). -/
theorem merge_first_nonempty_wins (v1 v2 ov : Json)
    (h1 : v1.isScalar = true) (h2 : isEmptyVal v1 = false) (hov : ov.isScalar = true) :
    Json.lookup (mergeFragments [.obj [("a", v1)], .obj [("a", v2)]]) "a" = some v1 ∧
    Json.lookup (applyOverride mergeFuel
      (mergeFragments [.obj [("a", v1)], .obj [("a", v2)]]) (.obj [("a", ov)])) "a" = some ov := by
  have e1 : mergeFragments [.obj [("a", v1)], .obj [("a", v2)]] =
      .obj [("a", mergeVal 31 v1 v2)] := rfl
  rw [e1, mergeVal_scalar 30 v1 v2 h1 h2]
  constructor
  · rfl
  · have e2 : applyOverride mergeFuel (.obj [("a", v1)]) (.obj [("a", ov)]) =
        .obj [("a", applyOverride 31 v1 ov)] := rfl
    rw [e2, applyOverride_scalar 30 v1 ov hov]
    rfl

/-- Witness for `merge_first_nonempty_wins` at the spec's concrete
example: fragments `a=1` then `a=2` merge to `a=1`, and the user override
`a=9` yields `a=9`. -/
theorem merge_first_nonempty_wins_witness :
    Json.lookup (mergeFragments [.obj [("a", .num 1)], .obj [("a", .num 2)]]) "a"
      = some (.num 1) ∧
    Json.lookup (applyOverride mergeFuel
      (mergeFragments [.obj [("a", .num 1)], .obj [("a", .num 2)]]) (.obj [("a", .num 9)])) "a"
      = some (.num 9) :=
  merge_first_nonempty_wins (.num 1) (.num 2) (.num 9) rfl rfl rfl

/-- With enough fuel, concatenating the emitted chunks restores the
input. -/
lemma chunkifyF_flatten (size : Nat) :
    ∀ n (ys : List Int), ys.length ≤ n → (chunkifyF size n ys).flatten = ys := by
  intro n
  induction n with
  | zero =>
    intro ys h
    have : ys = [] := List.eq_nil_of_length_eq_zero (Nat.le_zero.mp h)
    subst this
    rfl
  | succ n ih =>
    intro ys h
    cases ys with
    | nil => rfl
    | cons x rest =>
      show ((x :: rest.take (size - 1)) :: chunkifyF size n (rest.drop (size - 1))).flatten
        = x :: rest
      simp only [List.flatten_cons]
      rw [ih (rest.drop (size - 1)) (by simp [List.length_drop]; simp at h; omega)]
      simp [List.cons_append, List.take_append_drop]

/-- Concatenating the chunks in emission order reconstructs the dataset. -/
lemma chunkify_flatten (size : Nat) (xs : List Int) : (chunkify size xs).flatten = xs :=
  chunkifyF_flatten size xs.length xs le_rfl

/-- With enough fuel, every emitted chunk is non-empty. -/
lemma chunkifyF_ne_nil (size : Nat) :
    ∀ n (ys : List Int), ys.length ≤ n → ∀ c ∈ chunkifyF size n ys, c ≠ [] := by
  intro n
  induction n with
  | zero =>
    intro ys h
    have : ys = [] := List.eq_nil_of_length_eq_zero (Nat.le_zero.mp h)
    subst this
    intro c hc
    cases hc
  | succ n ih =>
    intro ys h
    cases ys with
    | nil => intro c hc; cases hc
    | cons x rest =>
      intro c hc
      rcases List.mem_cons.mp hc with h1 | h2
      · subst h1; exact List.cons_ne_nil _ _
      · exact ih (rest.drop (size - 1)) (by simp [List.length_drop]; simp at h; omega) c h2

/-- Every emitted chunk is non-empty. -/
lemma chunkify_ne_nil (size : Nat) (xs : List Int) : ∀ c ∈ chunkify size xs, c ≠ [] :=
  chunkifyF_ne_nil size xs.length xs le_rfl

/-- With enough fuel, every emitted chunk holds at most `size` samples
(for positive `size`). -/
lemma chunkifyF_length_le (size : Nat) (hs : 0 < size) :
    ∀ n (ys : List Int), ys.length ≤ n → ∀ c ∈ chunkifyF size n ys, c.length ≤ size := by
  intro n
  induction n with
  | zero =>
    intro ys h
    have : ys = [] := List.eq_nil_of_length_eq_zero (Nat.le_zero.mp h)
    subst this
    intro c hc
    cases hc
  | succ n ih =>
    intro ys h
    cases ys with
    | nil => intro c hc; cases hc
    | cons x rest =>
      intro c hc
      rcases List.mem_cons.mp hc with h1 | h2
      · subst h1
        simp [List.length_take]
        omega
      · exact ih (rest.drop (size - 1)) (by simp [List.length_drop]; simp at h; omega) c h2

/-- Every emitted chunk holds at most `size` samples (for positive
`size`). -/
lemma chunkify_length_le (size : Nat) (hs : 0 < size) (xs : List Int) :
    ∀ c ∈ chunkify size xs, c.length ≤ size :=
  chunkifyF_length_le size hs xs.length xs le_rfl

/-- There are as many emission offsets as chunks. -/
lemma emissionOffsets_length (cs : List (List Int)) :
    (emissionOffsets cs).length = cs.length := by
  induction cs with
  | nil => rfl
  | cons c cs ih => simp [emissionOffsets, ih]

/-- With non-empty chunks, the emission offsets strictly increase. -/
lemma emissionOffsets_chain (cs : List (List Int)) (h : ∀ c ∈ cs, c ≠ []) :
    List.Chain' (· < ·) (emissionOffsets cs) := by
  induction cs with
  | nil => simp [emissionOffsets]
  | cons c cs ih =>
    rw [emissionOffsets, List.chain'_cons']
    constructor
    · intro y hy
      rw [List.head?_map] at hy
      have hc : c ≠ [] := h c (List.mem_cons_self _ _)
      have hlen : 0 < c.length := List.length_pos.mpr hc
      cases ho : (emissionOffsets cs).head? with
      | none => rw [ho] at hy; cases hy
      | some o =>
        rw [ho] at hy
        simp at hy
        omega
    · exact List.chain'_map_of_chain' (fun o => c.length + o)
        (fun a b hab => Nat.add_lt_add_left hab c.length)
        (ih (fun c' hc' => h c' (List.mem_cons_of_mem _ hc')))

/-- The i-th emission offset is the total length of the chunks emitted
before it. -/
lemma emissionOffsets_get (cs : List (List Int)) (i : Nat)
    (h : i < (emissionOffsets cs).length) :
    (emissionOffsets cs).get ⟨i, h⟩ = ((cs.take i).map List.length).sum := by
  induction cs generalizing i with
  | nil => cases h
  | cons c cs ih =>
    cases i with
    | zero => rfl
    | succ i =>
      have h2 : i < ((emissionOffsets cs).map (fun o => c.length + o)).length := by
        simpa [emissionOffsets] using h
      have h3 : i < (emissionOffsets cs).length := by simpa using h2
      show ((emissionOffsets cs).map (fun o => c.length + o)).get ⟨i, h2⟩ = _
      rw [List.get_map, ih i h3]
      simp [List.take_succ_cons, List.sum_cons]

/-- In any chunk list, the i-th chunk is the contiguous slice of the
concatenation starting at the total length of its predecessors. -/
lemma flatten_chunk_slice (cs : List (List Int)) (i : Nat) (h : i < cs.length) :
    cs.get ⟨i, h⟩ =
      (cs.flatten.drop (((cs.take i).map List.length).sum)).take (cs.get ⟨i, h⟩).length := by
  induction cs generalizing i with
  | nil => cases h
  | cons c cs ih =>
    cases i with
    | zero =>
      simp only [List.get, List.take_zero, List.map_nil, List.sum_nil, List.drop_zero,
        List.flatten_cons]
      rw [List.take_left]
    | succ i =>
      have h2 : i < cs.length := by simpa using h
      show cs.get ⟨i, h2⟩ = _
      simp only [List.take_succ_cons, List.map_cons, List.sum_cons, List.flatten_cons]
      rw [List.drop_append]
      exact ih i h2

/-- C5: the chunks IterativeWriter emits for a dataset are non-empty,
non-overlapping contiguous slices in strictly increasing index order —
each chunk is the slice of the dataset starting at its emission offset,
the offsets strictly increase — and concatenating all chunks in emission
order reconstructs the full dataset exactly once, with no gaps and no
overlaps. -/
theorem chunk_emission_partition (size : Nat) (xs : List Int) :
    (chunkify size xs).flatten = xs ∧
    (∀ c ∈ chunkify size xs, c ≠ []) ∧
    List.Chain' (· < ·) (emissionOffsets (chunkify size xs)) ∧
    (∀ i (hi : i < (chunkify size xs).length) (ho : i < (emissionOffsets (chunkify size xs)).length),
      (chunkify size xs).get ⟨i, hi⟩ =
        (xs.drop ((emissionOffsets (chunkify size xs)).get ⟨i, ho⟩)).take
          ((chunkify size xs).get ⟨i, hi⟩).length) := by
  refine ⟨chunkify_flatten size xs, chunkify_ne_nil size xs,
    emissionOffsets_chain _ (chunkify_ne_nil size xs), ?_⟩
  intro i hi ho
  rw [emissionOffsets_get _ i ho]
  conv_lhs => rw [flatten_chunk_slice _ i hi]
  rw [chunkify_flatten size xs]

/-- Witness for `chunk_emission_partition` at chunk size 2 over the
dataset `[1, 2, 3]`: the second chunk `[3]` is the slice at offset 2, it
is non-empty, and concatenation restores the dataset. -/
theorem chunk_emission_partition_witness :
    (chunkify 2 [1, 2, 3]).flatten = [1, 2, 3] ∧
    [3] ≠ ([] : List Int) ∧
    (chunkify 2 [1, 2, 3]).get ⟨1, by decide⟩ =
      (([1, 2, 3] : List Int).drop ((emissionOffsets (chunkify 2 [1, 2, 3])).get ⟨1, by decide⟩)).take
        ((chunkify 2 [1, 2, 3]).get ⟨1, by decide⟩).length :=
  ⟨(chunk_emission_partition 2 [1, 2, 3]).1,
   (chunk_emission_partition 2 [1, 2, 3]).2.1 [3] (by decide),
   (chunk_emission_partition 2 [1, 2, 3]).2.2.2 1 (by decide) (by decide)⟩

/-- The run-length code is lossless: decompressing a compressed chunk
restores its sample values. -/
lemma rle_roundtrip (xs : List Int) : rleDecompress (rleCompress xs) = xs := by
  induction xs with
  | nil => rfl
  | cons x xs ih =>
    rw [rleCompress]
    cases h : rleCompress xs with
    | nil =>
      rw [h] at ih
      simp [rleDecompress] at ih ⊢
      exact ih
    | cons r rest =>
      obtain ⟨n, y⟩ := r
      rw [h] at ih
      by_cases hxy : x = y
      · subst hxy
        simp only [if_pos rfl]
        simp only [rleDecompress] at ih ⊢
        rw [List.replicate_succ, List.cons_append, ih]
      · simp only [if_neg hxy]
        simp only [rleDecompress] at ih ⊢
        rw [ih]
        simp [List.replicate]

/-- C3: writing any finite sample sequence through IterativeWriter and
reading the dataset back is the identity on sample values, for every
chunk size and compression configuration (lossless compression
invariant). -/
theorem write_read_roundtrip (spec : CompressionSpec) (xs : List Int) :
    readDataset (writeDataset spec xs) = xs := by
  unfold readDataset writeDataset
  rw [List.map_map]
  have hcd : ∀ data : List Int,
      decompressChunk (compressChunk spec.level data) = data := by
    intro data
    unfold compressChunk
    by_cases h : spec.level = 0
    · rw [if_pos h]; rfl
    · rw [if_neg h]
      exact rle_roundtrip data
  have hmap : (chunkify spec.chunkShape xs).map (decompressChunk ∘ compressChunk spec.level) =
      (chunkify spec.chunkShape xs).map id := List.map_congr_left (fun c _ => hcd c)
  rw [hmap, List.map_id]
  exact chunkify_flatten _ _

/-- The maximum of a list of sizes is bounded by any common bound. -/
lemma foldr_max_le (l : List Nat) (C : Nat) (h : ∀ x ∈ l, x ≤ C) : l.foldr max 0 ≤ C := by
  induction l with
  | nil => exact Nat.zero_le C
  | cons x ls ih =>
    rw [List.foldr_cons]
    exact Nat.max_le.mpr ⟨h x (List.mem_cons_self _ _),
      ih (fun z hz => h z (List.mem_cons_of_mem _ hz))⟩

/-- C8: streaming any dataset through IterativeWriter with positive
chunk size keeps the memory high-water mark bounded by the chunk size —
the bound does not mention the dataset, so it is independent of its
total size N. -/
theorem peak_memory_bounded (spec : CompressionSpec) (xs : List Int)
    (h : 0 < spec.chunkShape) :
    peakMemory spec xs ≤ spec.chunkShape := by
  unfold peakMemory residentTrace
  apply foldr_max_le
  intro x hx
  rcases List.mem_map.mp hx with ⟨c, hc, rfl⟩
  exact chunkify_length_le _ h _ c hc

/-- Witness for `peak_memory_bounded`: a 5-sample dataset written with
chunk size 2 peaks at no more than 2 resident samples. -/
theorem peak_memory_bounded_witness :
    0 < (CompressionSpec.mk "GZIP" 4 2).chunkShape ∧
    peakMemory (CompressionSpec.mk "GZIP" 4 2) [5, 6, 7, 8, 9] ≤
      (CompressionSpec.mk "GZIP" 4 2).chunkShape :=
  ⟨by decide, peak_memory_bounded (CompressionSpec.mk "GZIP" 4 2) [5, 6, 7, 8, 9] (by decide)⟩

/-- Reading back a freshly written path yields the written content. -/
lemma FileSystem.read_write (fs : FileSystem) (p c : String) :
    (fs.write p c).read p = some c := by
  unfold FileSystem.read FileSystem.write
  simp [List.find?]

/-- C6: when the metadata fails validation against the composed schema,
`run_conversion` reports a SchemaViolation and aborts before any write:
the file system is returned unchanged, so the output target is neither
created nor touched. -/
theorem invalid_metadata_aborts (conv : Orchestrator) (fmtOk : String → String → Bool)
    (freshId : String) (args : ConvArgs) (fs : FileSystem)
    (h : validate metadataDefs fmtOk schemaFuel metadataSchema args.metadata = false) :
    run_conversion conv fmtOk freshId args fs = (fs, .error .schemaViolation) := by
  unfold run_conversion
  rw [h]
  simp

/-- Witness for `invalid_metadata_aborts`: a metadata document missing
the required `NWBFile` section aborts the run and leaves the file system
as it was. -/
theorem invalid_metadata_aborts_witness :
    run_conversion ⟨[7], ⟨"GZIP", 4, 2⟩⟩ anyFmt "rand-id"
      ⟨.obj [], .obj [], "out.nwb", true, true⟩ [("prior.nwb", "KEEP")] =
      ([("prior.nwb", "KEEP")], .error .schemaViolation) :=
  invalid_metadata_aborts ⟨[7], ⟨"GZIP", 4, 2⟩⟩ anyFmt "rand-id"
    ⟨.obj [], .obj [], "out.nwb", true, true⟩ [("prior.nwb", "KEEP")] rfl

/-- C1 (counterexample): calling `run_conversion` with `overwrite=False`
against an existing output target does NOT fail — the call succeeds and
the target's bytes change (the produced content is appended to the
existing file, as the tutorial documents). -/
theorem overwrite_false_appends_cex :
    (run_conversion ⟨[7, 7, 9], ⟨"GZIP", 4, 2⟩⟩ anyFmt "rand-id"
        ⟨.obj [("NWBFile", .obj [])], .obj [], "out.nwb", true, false⟩
        [("out.nwb", "OLD")]).2 = .ok none ∧
    (run_conversion ⟨[7, 7, 9], ⟨"GZIP", 4, 2⟩⟩ anyFmt "rand-id"
        ⟨.obj [("NWBFile", .obj [])], .obj [], "out.nwb", true, false⟩
        [("out.nwb", "OLD")]).1.read "out.nwb" ≠ some "OLD" := by
  constructor
  · rfl
  · decide

/-- C1 (amended): with valid metadata, `save_to_file=True`,
`overwrite=False` and an existing output target, `run_conversion`
succeeds and appends the produced content to the existing file's bytes
("If False, this appends an existing file" — tutorial notebook). -/
theorem overwrite_false_appends (conv : Orchestrator) (fmtOk : String → String → Bool)
    (freshId : String) (args : ConvArgs) (fs : FileSystem) (old : String)
    (hv : validate metadataDefs fmtOk schemaFuel metadataSchema args.metadata = true)
    (hs : args.saveToFile = true) (ho : args.overwrite = false)
    (he : fs.read args.nwbfilePath = some old) :
    run_conversion conv fmtOk freshId args fs =
      (fs.write args.nwbfilePath (old ++ producedContent conv freshId args.metadata),
       .ok none) := by
  unfold run_conversion
  rw [hv, hs, he, ho]
  simp

/-- Witness for `overwrite_false_appends` at a concrete run against the
existing file `out.nwb` holding `OLD`. -/
theorem overwrite_false_appends_witness :
    run_conversion ⟨[7, 7, 9], ⟨"GZIP", 4, 2⟩⟩ anyFmt "rand-id"
      ⟨.obj [("NWBFile", .obj [])], .obj [], "out.nwb", true, false⟩ [("out.nwb", "OLD")] =
      (FileSystem.write [("out.nwb", "OLD")] "out.nwb"
        ("OLD" ++ producedContent ⟨[7, 7, 9], ⟨"GZIP", 4, 2⟩⟩ "rand-id"
          (.obj [("NWBFile", .obj [])])),
       .ok none) :=
  overwrite_false_appends ⟨[7, 7, 9], ⟨"GZIP", 4, 2⟩⟩ anyFmt "rand-id"
    ⟨.obj [("NWBFile", .obj [])], .obj [], "out.nwb", true, false⟩ [("out.nwb", "OLD")] "OLD"
    rfl rfl rfl rfl

/-- C7 (counterexample): two complete runs over identical source inputs,
metadata, options and chunking configuration produce different output
bytes when the metadata omits `NWBFile.identifier`, because the schema
assigns a random identifier (here made explicit as the two distinct
draws `id-A` and `id-B`). -/
theorem two_runs_differ_cex :
    (run_conversion ⟨[7], ⟨"GZIP", 4, 2⟩⟩ anyFmt "id-A"
        ⟨.obj [("NWBFile", .obj [])], .obj [], "out.nwb", true, true⟩ []).1.read "out.nwb" ≠
    (run_conversion ⟨[7], ⟨"GZIP", 4, 2⟩⟩ anyFmt "id-B"
        ⟨.obj [("NWBFile", .obj [])], .obj [], "out.nwb", true, true⟩ []).1.read "out.nwb" := by
  decide

/-- C7 (amended): whenever the metadata explicitly provides
`NWBFile.identifier`, the run does not depend on the random identifier
draw, so two runs with identical source inputs, metadata, options and
chunking configuration produce identical results byte for byte. -/
theorem two_runs_deterministic_with_identifier (conv : Orchestrator)
    (fmtOk : String → String → Bool) (id1 id2 : String) (args : ConvArgs) (fs : FileSystem)
    (h : hasIdentifier args.metadata = true) :
    run_conversion conv fmtOk id1 args fs = run_conversion conv fmtOk id2 args fs := by
  unfold run_conversion producedContent effectiveMetadata
  rw [h]
  simp

/-- Witness for `two_runs_deterministic_with_identifier`: with the
explicit identifier `ID7`, the runs under the draws `id-A` and `id-B`
coincide. -/
theorem two_runs_deterministic_with_identifier_witness :
    run_conversion ⟨[7], ⟨"GZIP", 4, 2⟩⟩ anyFmt "id-A"
      ⟨.obj [("NWBFile", .obj [("identifier", .str "ID7")])], .obj [], "out.nwb", true, true⟩ [] =
    run_conversion ⟨[7], ⟨"GZIP", 4, 2⟩⟩ anyFmt "id-B"
      ⟨.obj [("NWBFile", .obj [("identifier", .str "ID7")])], .obj [], "out.nwb", true, true⟩ [] :=
  two_runs_deterministic_with_identifier ⟨[7], ⟨"GZIP", 4, 2⟩⟩ anyFmt "id-A" "id-B"
    ⟨.obj [("NWBFile", .obj [("identifier", .str "ID7")])], .obj [], "out.nwb", true, true⟩ [] rfl

/-- C10: for valid metadata, `run_conversion` with `save_to_file=False`
writes nothing (the file system is returned unchanged) and instead
returns the in-memory NWBFile object, while `save_to_file=True` writes
the output file at `nwbfile_path`. -/
theorem save_to_file_flag (conv : Orchestrator) (fmtOk : String → String → Bool)
    (freshId : String) (args : ConvArgs) (fs : FileSystem)
    (hv : validate metadataDefs fmtOk schemaFuel metadataSchema args.metadata = true) :
    (args.saveToFile = false →
      run_conversion conv fmtOk freshId args fs =
        (fs, .ok (some (effectiveMetadata freshId args.metadata)))) ∧
    (args.saveToFile = true →
      (run_conversion conv fmtOk freshId args fs).2 = .ok none ∧
      (run_conversion conv fmtOk freshId args fs).1.read args.nwbfilePath ≠ none) := by
  constructor
  · intro hs
    unfold run_conversion
    rw [hv, hs]
    simp
  · intro hs
    unfold run_conversion
    rw [hv, hs]
    simp only [if_true]
    cases he : FileSystem.read fs args.nwbfilePath with
    | none => simp [FileSystem.read_write]
    | some old =>
      by_cases hov : args.overwrite
      · simp [hov, FileSystem.read_write]
      · simp [hov, FileSystem.read_write]

/-- Witness for `save_to_file_flag`: with `save_to_file=False` the run
returns the in-memory object over an unchanged empty file system; with
`save_to_file=True` it creates `out.nwb`. -/
theorem save_to_file_flag_witness :
    (run_conversion ⟨[7], ⟨"GZIP", 4, 2⟩⟩ anyFmt "rand-id"
        ⟨.obj [("NWBFile", .obj [])], .obj [], "out.nwb", false, true⟩ [] =
      ([], .ok (some (effectiveMetadata "rand-id" (.obj [("NWBFile", .obj [])]))))) ∧
    ((run_conversion ⟨[7], ⟨"GZIP", 4, 2⟩⟩ anyFmt "rand-id"
        ⟨.obj [("NWBFile", .obj [])], .obj [], "out.nwb", true, true⟩ []).2 = .ok none ∧
     (run_conversion ⟨[7], ⟨"GZIP", 4, 2⟩⟩ anyFmt "rand-id"
        ⟨.obj [("NWBFile", .obj [])], .obj [], "out.nwb", true, true⟩ []).1.read "out.nwb"
        ≠ none) :=
  ⟨(save_to_file_flag ⟨[7], ⟨"GZIP", 4, 2⟩⟩ anyFmt "rand-id"
      ⟨.obj [("NWBFile", .obj [])], .obj [], "out.nwb", false, true⟩ [] rfl).1 rfl,
   (save_to_file_flag ⟨[7], ⟨"GZIP", 4, 2⟩⟩ anyFmt "rand-id"
      ⟨.obj [("NWBFile", .obj [])], .obj [], "out.nwb", true, true⟩ [] rfl).2 rfl⟩

end NwbConv
